import Mathlib

/-!
Shallow embedding of the receipt-to-draft extraction pipeline of this
repository.  The repository contains three revisions of the same Next.js
route (`/api/expenses/parse`):

* two fetch-based revisions that build the draft by bare type coercion and
  then apply a truthiness-based referential guardrail against the
  caller-supplied category/account id sets, and
* an SDK-based revision whose `normalizeDraft` clamps the amount, checks the
  date format, trims the description and filters the model warnings.

JavaScript values carried by the model output are embedded as `JsonValue`;
JavaScript numbers are embedded as `JsNum` (a rational together with the
three non-finite values), which is what the route distinguishes
(`typeof x === "number"`, `Number.isFinite`, comparisons, `Math.round`).
-/

/-- JavaScript number: a finite rational or one of `NaN`, `Infinity`,
`-Infinity`.  `typeof` of all four is `"number"`. -/
inductive JsNum where
  | nan : JsNum
  | posInf : JsNum
  | negInf : JsNum
  | finite : ℚ → JsNum
deriving DecidableEq

/-- JSON-like JavaScript value, as produced by `JSON.parse` and by
`resp.json()`.  Objects are association lists; `JSON.parse` never produces
duplicate keys (a later duplicate overwrites the earlier one), and field
access takes the last binding accordingly. -/
inductive JsonValue where
  | null : JsonValue
  | bool : Bool → JsonValue
  | num : JsNum → JsonValue
  | str : String → JsonValue
  | arr : List JsonValue → JsonValue
  | obj : List (String × JsonValue) → JsonValue

/-- Field access on an object's association list (last binding wins, as in
`JSON.parse` output). -/
def jsGet (fields : List (String × JsonValue)) (k : String) : Option JsonValue :=
  fields.reverse.lookup k

/-- Property access `v?.k`: `undefined` (here `none`) on anything that is
not an object. -/
def getJ (v : JsonValue) (k : String) : Option JsonValue :=
  match v with
  | .obj fields => jsGet fields k
  | _ => none

/-- Rendering of a JavaScript number by `String()`.  Exact on the values the
routes exercise (integers and the non-finite values); non-integral rationals
are rendered by the numerator/denominator printer, an approximation of the
IEEE-754 shortest-round-trip printer that no claim depends on. -/
def jsNumToString : JsNum → String
  | .nan => "NaN"
  | .posInf => "Infinity"
  | .negInf => "-Infinity"
  | .finite q => if q.den = 1 then toString q.num else toString q

mutual
/-- JavaScript `String(x)` coercion. -/
def jsString : JsonValue → String
  | .null => "null"
  | .bool b => cond b "true" "false"
  | .num n => jsNumToString n
  | .str s => s
  | .arr l => String.intercalate "," (jsStringElems l)
  | .obj _ => "[object Object]"

/-- `Array.prototype.toString` renders `null` elements as the empty
string. -/
def jsStringElems : List JsonValue → List String
  | [] => []
  | .null :: t => "" :: jsStringElems t
  | v :: t => jsString v :: jsStringElems t
end

/-- JavaScript falsiness of a value. -/
def jsFalsy : JsonValue → Bool
  | .null => true
  | .bool b => !b
  | .num .nan => true
  | .num (.finite q) => q = 0
  | .num _ => false
  | .str s => s = ""
  | .arr _ => false
  | .obj _ => false

/-- Whitespace characters stripped by `String.prototype.trim` (the ASCII
part; the claims never exercise the Unicode space separators). -/
def wsChar (c : Char) : Bool :=
  (c == ' ') || (c == '\t') || (c == '\n') || (c == '\r') || (c == '\x0B') || (c == '\x0C')

/-- Drop trailing whitespace. -/
def trimR (l : List Char) : List Char :=
  (l.reverse.dropWhile wsChar).reverse

/-- Drop leading and trailing whitespace. -/
def trimChars (l : List Char) : List Char :=
  trimR (l.dropWhile wsChar)

/-- JavaScript `s.trim()`. -/
def jsTrim (s : String) : String :=
  ⟨trimChars s.data⟩

/-- JavaScript `s.slice(0, n)` for a nonnegative `n`. -/
def jsTake (s : String) (n : Nat) : String :=
  ⟨s.data.take n⟩

/-- The draft object returned by every revision of the route.  `confidence`
is kept as a string, since JavaScript does not enforce the annotated union
type; it is exactly the normalization that keeps it in
`{high, medium, low}`. -/
structure DraftExpense where
  amount : Option JsNum
  expense_date : Option String
  description : Option String
  category_id : Option String
  account_id : Option String
  confidence : String
  warnings : List String
deriving DecidableEq

/-- `isISODate` of the parse revision: the regex test
`/^\d{4}-\d{2}-\d{2}$/.test(s)`. -/
def isISODate (s : String) : Bool :=
  match s.data with
  | [a, b, c, d, e, f, g, h, i, j] =>
      a.isDigit && b.isDigit && c.isDigit && d.isDigit && (e == '-') &&
      f.isDigit && g.isDigit && (h == '-') && i.isDigit && j.isDigit
  | _ => false

/-- JavaScript `Math.round`: round half toward positive infinity. -/
def roundJs (q : ℚ) : ℤ :=
  ⌊q + 1 / 2⌋

/-- `clampAmount` of the parse revision: null unless finite, nonnegative and
at most 500000; otherwise `Math.round`. -/
def clampAmount (n : JsNum) : Option JsNum :=
  match n with
  | .finite q =>
      if q < 0 then none
      else if q > 500000 then none
      else some (.finite ((roundJs q : ℤ) : ℚ))
  | _ => none

/-! ### The parse revision: `normalizeDraft` (steps 1-5 of the pipeline)

Each local constant of the source function is embedded as a named
function of the raw parsed value `x`. -/

/-- `typeof x?.amount === "number" ? x.amount : null`. -/
def nAmountRaw (x : JsonValue) : Option JsNum :=
  match getJ x "amount" with
  | some (.num n) => some n
  | _ => none

/-- `amountRaw === null ? null : clampAmount(amountRaw)`. -/
def nAmount (x : JsonValue) : Option JsNum :=
  match nAmountRaw x with
  | some n => clampAmount n
  | none => none

/-- Warning pushed when a numeric amount was rejected by the clamp. -/
def nAmountWarn (x : JsonValue) : List String :=
  match nAmountRaw x, nAmount x with
  | some _, none => ["Amount looked invalid/out of range; please verify."]
  | _, _ => []

/-- `typeof x?.expense_date === "string" ? x.expense_date : null`. -/
def nDateRaw (x : JsonValue) : Option String :=
  match getJ x "expense_date" with
  | some (.str s) => some s
  | _ => none

/-- `dateRaw && isISODate(dateRaw) ? dateRaw : null` (the empty string is
falsy, so it falls to `null`). -/
def nDate (x : JsonValue) : Option String :=
  match nDateRaw x with
  | some s => if s ≠ "" ∧ isISODate s = true then some s else none
  | none => none

/-- Warning pushed by `if (dateRaw && !expense_date)`. -/
def nDateWarn (x : JsonValue) : List String :=
  match nDateRaw x with
  | some s =>
      if s ≠ "" ∧ nDate x = none then ["Date wasn’t in YYYY-MM-DD format; please verify."]
      else []
  | none => []

/-- `typeof x?.description === "string" ? x.description.trim() || null : null`. -/
def nDescription (x : JsonValue) : Option String :=
  match getJ x "description" with
  | some (.str s) => if jsTrim s = "" then none else some (jsTrim s)
  | _ => none

/-- `typeof x?.category_id === "string" ? x.category_id : null`. -/
def nCat (x : JsonValue) : Option String :=
  match getJ x "category_id" with
  | some (.str s) => some s
  | _ => none

/-- `typeof x?.account_id === "string" ? x.account_id : null`. -/
def nAcc (x : JsonValue) : Option String :=
  match getJ x "account_id" with
  | some (.str s) => some s
  | _ => none

/-- `x?.confidence === "high" || === "medium" || === "low" ? x.confidence
: "low"` (shared verbatim by all three revisions). -/
def nConf (x : JsonValue) : String :=
  match getJ x "confidence" with
  | some (.str s) => if s = "high" ∨ s = "medium" ∨ s = "low" then s else "low"
  | _ => "low"

/-- Parse revision: `Array.isArray(x?.warnings) ? x.warnings.filter(s =>
typeof s === "string") : []`. -/
def nWarnModel (x : JsonValue) : List String :=
  match getJ x "warnings" with
  | some (.arr l) =>
      l.filterMap fun v => match v with | .str s => some s | _ => none
  | _ => []

/-- `normalizeDraft` of the parse revision: model warnings first, then the
warnings generated by this pass (amount warning before date warning, in
push order). -/
def normalizeDraft (x : JsonValue) : DraftExpense :=
  { amount := nAmount x
    expense_date := nDate x
    description := nDescription x
    category_id := nCat x
    account_id := nAcc x
    confidence := nConf x
    warnings := nWarnModel x ++ (nAmountWarn x ++ nDateWarn x) }

/-! ### The fetch revisions: draft construction and referential guardrail -/

/-- `typeof parsed.expense_date === "string" ? parsed.expense_date : null`
(fetch revisions do not check the date format). -/
def fDescriptionRaw (x : JsonValue) : Option String :=
  match getJ x "description" with
  | some (.str s) => some s
  | _ => none

/-- Fetch revisions: `Array.isArray(parsed.warnings) ?
parsed.warnings.map(x => String(x)) : []` (coercion, not filtering). -/
def fWarnModel (x : JsonValue) : List String :=
  match getJ x "warnings" with
  | some (.arr l) => l.map jsString
  | _ => []

/-- Draft construction of the fetch revisions (identical in both): bare
type coercion of every field, no clamping and no format check. -/
def buildFetchDraft (parsed : JsonValue) : DraftExpense :=
  { amount := nAmountRaw parsed
    expense_date := nDateRaw parsed
    description := fDescriptionRaw parsed
    category_id := nCat parsed
    account_id := nAcc parsed
    confidence := nConf parsed
    warnings := fWarnModel parsed }

/-- Truthiness-based guardrail condition `draft.category_id &&
!validIds.has(draft.category_id)`: only a non-empty string outside the id
set triggers.  Ids of the reference list elements that are not strings can
never strict-equal a string draft id, so only the string ids matter. -/
def idBad (ids : List String) : Option String → Bool
  | some s => (!(s == "")) && !(ids.contains s)
  | none => false

/-- Fixed guardrail warning for an out-of-list category id. -/
def catMsg : String :=
  "Model suggested a category_id that is not in the allowed list; set to null."

/-- Fixed guardrail warning for an out-of-list account id. -/
def accMsg : String :=
  "Model suggested an account_id that is not in the allowed list; set to null."

/-- First guardrail mutation: `if (draft.category_id &&
!validCatIds.has(draft.category_id))` nulls the id, appends the fixed
warning and forces `confidence = "low"`. -/
def guardCat (catIds : List String) (d : DraftExpense) : DraftExpense :=
  if idBad catIds d.category_id then
    { d with category_id := none, confidence := "low", warnings := d.warnings ++ [catMsg] }
  else d

/-- Second guardrail mutation, identical for the account id. -/
def guardAcc (accIds : List String) (d : DraftExpense) : DraftExpense :=
  if idBad accIds d.account_id then
    { d with account_id := none, confidence := "low", warnings := d.warnings ++ [accMsg] }
  else d

/-- Referential guardrail of the fetch revisions: the category check runs
first, then the account check, on the draft the first check produced. -/
def applyGuardrails (catIds accIds : List String) (d : DraftExpense) : DraftExpense :=
  guardAcc accIds (guardCat catIds d)

/-- Full draft stage of the fetch revisions: coercion then guardrail. -/
def fetchPipeline (catIds accIds : List String) (parsed : JsonValue) : DraftExpense :=
  applyGuardrails catIds accIds (buildFetchDraft parsed)

/-- The full normalization-and-guardrail pipeline of the specification
(steps 1-6): steps 1-5 are `normalizeDraft` of the parse revision, step 6
is the referential guardrail of the fetch revisions; no single revision
contains all six steps. -/
def specPipeline (catIds accIds : List String) (x : JsonValue) : DraftExpense :=
  applyGuardrails catIds accIds (normalizeDraft x)

/-- Serialization of a draft back to a parsed JSON value, for feeding the
pipeline output back through the pipeline. -/
def draftToJson (d : DraftExpense) : JsonValue :=
  .obj [("amount", match d.amount with | some n => .num n | none => .null),
        ("expense_date", match d.expense_date with | some s => .str s | none => .null),
        ("description", match d.description with | some s => .str s | none => .null),
        ("category_id", match d.category_id with | some s => .str s | none => .null),
        ("account_id", match d.account_id with | some s => .str s | none => .null),
        ("confidence", .str d.confidence),
        ("warnings", .arr (d.warnings.map JsonValue.str))]

/-! ### Response-shape extraction (`extractResponseText`, second fetch
revision) -/

/-- One content block's contribution: pushed only when the block's `type`
strict-equals `"output_text"` or `"summary_text"` and its `text` is a
string whose trim is truthy; what is pushed is the trimmed text. -/
def blockText (c : JsonValue) : Option String :=
  match c with
  | .obj f =>
      match jsGet f "type", jsGet f "text" with
      | some (.str ty), some (.str t) =>
          if (ty = "output_text" ∨ ty = "summary_text") ∧ jsTrim t ≠ "" then some (jsTrim t)
          else none
      | _, _ => none
  | _ => none

/-- Walk of `data.output[].content[]`: non-object items and non-array
`content` fields are skipped. -/
def collectParts : List JsonValue → List String
  | [] => []
  | item :: rest =>
      (match item with
       | .obj f =>
           match jsGet f "content" with
           | some (.arr cs) => cs.filterMap blockText
           | _ => []
       | _ => []) ++ collectParts rest

/-- `parts.join("\n")`. -/
def joinNL : List String → String
  | [] => ""
  | [s] => s
  | s :: rest => s ++ "\n" ++ joinNL rest

/-- Block path of `extractResponseText`: `parts.join("\n").trim()`,
returned only when truthy. -/
def blocksOf (fields : List (String × JsonValue)) : Option String :=
  match jsGet fields "output" with
  | some (.arr out) =>
      let j := jsTrim (joinNL (collectParts out))
      if j = "" then none else some j
  | _ => none

/-- `extractResponseText` of the second fetch revision: prefer a flattened
`output_text` string whose trim is truthy; otherwise walk the content
blocks; `null` on a non-object payload. -/
def extractResponseText (data : JsonValue) : Option String :=
  match data with
  | .obj fields =>
      (match jsGet fields "output_text" with
       | some (.str s) => if jsTrim s = "" then blocksOf fields else some (jsTrim s)
       | _ => blocksOf fields)
  | _ => none

/-- Modelled from the claim wording of C7 as stated: blocks of the two
kinds whose `text` is a non-empty string are concatenated, each trimmed,
separated by newlines. -/
def claimBlockTextOrig (c : JsonValue) : Option String :=
  match c with
  | .obj f =>
      match jsGet f "type", jsGet f "text" with
      | some (.str ty), some (.str t) =>
          if (ty = "output_text" ∨ ty = "summary_text") ∧ t ≠ "" then some (jsTrim t)
          else none
      | _, _ => none
  | _ => none

/-- Modelled from the claim wording of C7 as stated: the block walk with
the literal non-empty-text condition. -/
def claimCollectOrig : List JsonValue → List String
  | [] => []
  | item :: rest =>
      (match item with
       | .obj f =>
           match jsGet f "content" with
           | some (.arr cs) => cs.filterMap claimBlockTextOrig
           | _ => []
       | _ => []) ++ claimCollectOrig rest

/-- Modelled from the claim wording of C7 as stated: flattened field
preferred when non-empty after trim, otherwise the concatenation of the
blocks with non-empty string text, `none` when neither yields text. -/
def claimExtractOrig (data : JsonValue) : Option String :=
  match data with
  | .obj fields =>
      (match jsGet fields "output_text" with
       | some (.str s) => if jsTrim s = "" then
            (match jsGet fields "output" with
             | some (.arr out) =>
                 if claimCollectOrig out = [] then none else some (joinNL (claimCollectOrig out))
             | _ => none)
          else some (jsTrim s)
       | _ =>
            (match jsGet fields "output" with
             | some (.arr out) =>
                 if claimCollectOrig out = [] then none else some (joinNL (claimCollectOrig out))
             | _ => none))
  | _ => none

/-- Modelled from the amended claim wording of C7: as the claim states it,
but a block contributes only when its text is non-empty after trimming,
and the contributed text is the trimmed text. -/
def claimExtract (data : JsonValue) : Option String :=
  match data with
  | .obj fields =>
      (match jsGet fields "output_text" with
       | some (.str s) => if jsTrim s = "" then
            (match jsGet fields "output" with
             | some (.arr out) =>
                 if collectParts out = [] then none else some (joinNL (collectParts out))
             | _ => none)
          else some (jsTrim s)
       | _ =>
            (match jsGet fields "output" with
             | some (.arr out) =>
                 if collectParts out = [] then none else some (joinNL (collectParts out))
             | _ => none))
  | _ => none

/-! ### Route responses and the pre-call phase of the handlers -/

/-- HTTP response of the route, as far as the claims observe it: status,
the `error` field, the `raw` field of the parse revision, and the `draft`
field. -/
structure ApiResponse where
  status : Nat
  error : Option String := none
  raw : Option String := none
  draft : Option DraftExpense := none
deriving DecidableEq

/-- Top-level key list shown by the empty-output diagnostic:
`Object.keys(data).join(", ")` for an object, `"not-an-object"`
otherwise. -/
def keysOf (data : JsonValue) : String :=
  match data with
  | .obj fields => String.intercalate ", " (fields.map Prod.fst)
  | _ => "not-an-object"

/-- Second fetch revision, no readable text located: 500 with the
top-level key names, never the payload contents. -/
def emptyOutputResp (data : JsonValue) : ApiResponse :=
  { status := 500, error := some ("OpenAI returned no readable text. Response keys: " ++ keysOf data) }

/-- First fetch revision, JSON parse failure: a fixed 500 message, no echo
of the model text. -/
def malformedRespFetchA : ApiResponse :=
  { status := 500, error := some "Model did not return valid JSON" }

/-- Second fetch revision, JSON parse failure: 500 with the first 300
characters of the offending text. -/
def malformedRespFetchB (outputText : String) : ApiResponse :=
  { status := 500,
    error := some ("Model did not return valid JSON. Got: " ++ jsTake outputText 300) }

/-- Parse revision, JSON parse failure: 502 with a fixed message and the
full raw model text in a separate `raw` field. -/
def malformedRespParse (raw : String) : ApiResponse :=
  { status := 502, error := some "Model did not return valid JSON", raw := some raw }

/-- Character-list core of `String.prototype.startsWith`. -/
def strStarts : List Char → List Char → Bool
  | [], _ => true
  | _ :: _, [] => false
  | p :: ps, c :: cs => (p == c) && strStarts ps cs

/-- `s.startsWith(pre)` of JavaScript. -/
def jsStartsWith (s pre : String) : Bool :=
  strStarts pre.data s.data

/-- Pre-call phase of the first fetch revision (`part_000`): missing key,
body-shape check, `imageDataUrl` extraction with `typeof` check, the
truthiness test `if (!imageDataUrl)` (which also catches the empty
string), and the `data:image/` prefix guard.  On success it hands the
image and the raw reference lists to the outbound call. -/
def fetchPrecheck (keyPresent : Bool) (body : JsonValue) :
    Except ApiResponse (String × List JsonValue × List JsonValue) :=
  if !keyPresent then
    .error { status := 500,
             error := some "Missing OPENAI_API_KEY on server. Add it in Vercel Project → Settings → Environment Variables (Production + Preview) and redeploy." }
  else
    match body with
    | .obj fields =>
        let cats := match jsGet fields "categories" with | some (.arr l) => l | _ => []
        let accs := match jsGet fields "accounts" with | some (.arr l) => l | _ => []
        (match jsGet fields "imageDataUrl" with
         | some (.str s) =>
             if s = "" then .error { status := 400, error := some "imageDataUrl is required" }
             else if jsStartsWith s "data:image/" then .ok (s, cats, accs)
             else .error { status := 400, error := some "imageDataUrl must be a data:image/* URL" }
         | _ => .error { status := 400, error := some "imageDataUrl is required" })
    | _ => .error { status := 400, error := some "Invalid JSON body" }

/-- The first fetch revision's handler, with everything after the outbound
call abstracted as an oracle: an error of the pre-call phase is returned
as-is and the oracle is never consulted. -/
def fetchHandler (keyPresent : Bool)
    (oracle : String × List JsonValue × List JsonValue → ApiResponse)
    (body : JsonValue) : ApiResponse :=
  match fetchPrecheck keyPresent body with
  | .error r => r
  | .ok v => oracle v

/-- Parse revision: `String(body?.imageDataUrl || "")`. -/
def imageCoerced (body : JsonValue) : String :=
  match getJ body "imageDataUrl" with
  | some w => if jsFalsy w then "" else jsString w
  | none => ""

/-- Pre-call phase of the parse revision (`part_001`): the coerced value
is rejected with 400 only when it does not start with `data:image/`. -/
def parsePrecheck (body : JsonValue) : Except ApiResponse String :=
  if jsStartsWith (imageCoerced body) "data:image/" then .ok (imageCoerced body)
  else .error { status := 400, error := some "Invalid imageDataUrl (expected data:image/...)" }

/-- The parse revision's handler with the outbound call abstracted as an
oracle. -/
def parseHandler (oracle : String → ApiResponse) (body : JsonValue) : ApiResponse :=
  match parsePrecheck body with
  | .error r => r
  | .ok v => oracle v

/-! ### Lemmas about trimming and joining -/

theorem head?_dropWhile_false {p : Char → Bool} {l : List Char} {a : Char}
    (h : (l.dropWhile p).head? = some a) : p a = false := by
  induction l with
  | nil => simp [List.dropWhile] at h
  | cons b t ih =>
      rw [List.dropWhile_cons] at h
      by_cases hb : p b
      · simp [hb] at h; exact ih h
      · simp [hb] at h
        subst h
        simp [hb]

theorem dropWhile_eq_self_of {p : Char → Bool} {l : List Char} {a : Char}
    (h : l.head? = some a) (hp : p a = false) : l.dropWhile p = l := by
  cases l with
  | nil => rfl
  | cons b t =>
      simp at h
      subst h
      simp [List.dropWhile_cons, hp]

theorem trimR_append_eq (l : List Char) : ∃ r, trimR l ++ r = l := by
  obtain ⟨t, ht⟩ := List.dropWhile_suffix (l := l.reverse) wsChar
  refine ⟨t.reverse, ?_⟩
  have := congrArg List.reverse ht
  simpa [trimR] using this

theorem head?_trimR {l : List Char} {a : Char}
    (h : (trimR l).head? = some a) : l.head? = some a := by
  obtain ⟨r, hr⟩ := trimR_append_eq l
  have hne : trimR l ≠ [] := by
    intro hnil
    rw [hnil] at h
    simp at h
  rw [← hr, List.head?_append_of_ne_nil _ hne]
  exact h

theorem getLast?_trimR_false {l : List Char} {a : Char}
    (h : (trimR l).getLast? = some a) : wsChar a = false := by
  have hrev : (trimR l).getLast? = (l.reverse.dropWhile wsChar).head? := by
    unfold trimR
    have h0 := (List.head?_reverse (l.reverse.dropWhile wsChar).reverse).symm
    rw [List.reverse_reverse] at h0
    exact h0
  rw [hrev] at h
  exact head?_dropWhile_false h

theorem trimChars_head_false {l : List Char} {a : Char}
    (h : (trimChars l).head? = some a) : wsChar a = false :=
  head?_dropWhile_false (head?_trimR h)

theorem trimChars_getLast_false {l : List Char} {a : Char}
    (h : (trimChars l).getLast? = some a) : wsChar a = false :=
  getLast?_trimR_false h

theorem trimChars_eq_self {l : List Char}
    (h1 : ∀ a, l.head? = some a → wsChar a = false)
    (h2 : ∀ a, l.getLast? = some a → wsChar a = false) : trimChars l = l := by
  cases l with
  | nil => rfl
  | cons b t =>
      have hd : (b :: t).dropWhile wsChar = b :: t :=
        dropWhile_eq_self_of (l := b :: t) rfl (h1 b rfl)
      have hlast : ∃ c, (b :: t).getLast? = some c := by
        cases t with
        | nil => exact ⟨b, rfl⟩
        | cons d u => exact ⟨(d :: u).getLast (by simp), by simp [List.getLast?_eq_getLast]⟩
      obtain ⟨c, hc⟩ := hlast
      have hrevhead : (b :: t).reverse.head? = some c := by
        rw [List.head?_reverse]
        exact hc
      have hr : trimR (b :: t) = b :: t := by
        unfold trimR
        rw [dropWhile_eq_self_of hrevhead (h2 c hc), List.reverse_reverse]
      unfold trimChars
      rw [hd, hr]

theorem trimChars_idem (l : List Char) : trimChars (trimChars l) = trimChars l :=
  trimChars_eq_self (fun _ h => trimChars_head_false h) (fun _ h => trimChars_getLast_false h)

theorem jsTrim_idem (s : String) : jsTrim (jsTrim s) = jsTrim s := by
  show String.mk (trimChars (trimChars s.data)) = String.mk (trimChars s.data)
  rw [trimChars_idem]

theorem ne_empty_iff_data {s : String} : s ≠ "" ↔ s.data ≠ [] := by
  rw [ne_eq, String.ext_iff]

theorem joinNL_data_head {p : String} (rest : List String) (hp : p.data ≠ []) :
    (joinNL (p :: rest)).data.head? = p.data.head? := by
  cases rest with
  | nil => rfl
  | cons q rest' =>
      show ((p ++ "\n") ++ joinNL (q :: rest')).data.head? = p.data.head?
      have hdata : ((p ++ "\n") ++ joinNL (q :: rest')).data
          = (p.data ++ ['\n']) ++ (joinNL (q :: rest')).data := rfl
      rw [hdata, List.head?_append_of_ne_nil _ (by simp [hp]),
        List.head?_append_of_ne_nil _ hp]

theorem joinNL_data_ne_nil {p : String} (rest : List String) (hp : p.data ≠ []) :
    (joinNL (p :: rest)).data ≠ [] := by
  intro hnil
  have := joinNL_data_head rest hp
  rw [hnil] at this
  cases hq : p.data with
  | nil => exact hp hq
  | cons a u => rw [hq] at this; simp at this

theorem joinNL_data_getLast :
    ∀ parts : List String, (∀ q ∈ parts, q.data ≠ []) →
    ∀ a, (joinNL parts).data.getLast? = some a →
    ∃ q, q ∈ parts ∧ q.data.getLast? = some a := by
  intro parts
  induction parts with
  | nil => intro _ a h; simp [joinNL] at h
  | cons p rest ih =>
      intro hne a h
      cases rest with
      | nil => exact ⟨p, by simp, h⟩
      | cons q rest' =>
          have hq : q.data ≠ [] := hne q (by simp)
          have hJ : (joinNL (q :: rest')).data ≠ [] := joinNL_data_ne_nil rest' hq
          have hdata : (joinNL (p :: q :: rest')).data
              = (p.data ++ ['\n']) ++ (joinNL (q :: rest')).data := rfl
          rw [hdata, List.getLast?_append_of_ne_nil _ hJ] at h
          obtain ⟨r, hr, hlast⟩ := ih (fun x hx => hne x (by simp [hx])) a h
          exact ⟨r, by simp at hr ⊢; tauto, hlast⟩

theorem jsTrim_data (s : String) : (jsTrim s).data = trimChars s.data := rfl

theorem jsTrim_joinNL_eq {parts : List String}
    (hall : ∀ q ∈ parts, (∃ t, q = jsTrim t) ∧ q ≠ "") (hne : parts ≠ []) :
    jsTrim (joinNL parts) = joinNL parts ∧ joinNL parts ≠ "" := by
  cases parts with
  | nil => exact absurd rfl hne
  | cons p rest =>
      have hdata : ∀ q ∈ p :: rest, q.data ≠ [] := by
        intro q hq
        exact ne_empty_iff_data.mp (hall q hq).2
      have hpdata : p.data ≠ [] := hdata p (by simp)
      have hjoin_ne : (joinNL (p :: rest)).data ≠ [] := joinNL_data_ne_nil rest hpdata
      have hfix : trimChars (joinNL (p :: rest)).data = (joinNL (p :: rest)).data := by
        apply trimChars_eq_self
        · intro a ha
          rw [joinNL_data_head rest hpdata] at ha
          obtain ⟨⟨t, ht⟩, _⟩ := hall p (by simp)
          rw [ht, jsTrim_data] at ha
          exact trimChars_head_false ha
        · intro a ha
          obtain ⟨q, hq, hlast⟩ := joinNL_data_getLast (p :: rest) hdata a ha
          obtain ⟨⟨t, ht⟩, _⟩ := hall q hq
          rw [ht, jsTrim_data] at hlast
          exact trimChars_getLast_false hlast
      constructor
      · show String.mk (trimChars (joinNL (p :: rest)).data) = joinNL (p :: rest)
        rw [hfix]
      · exact ne_empty_iff_data.mpr hjoin_ne

theorem blockText_spec {c : JsonValue} {e : String} (h : blockText c = some e) :
    (∃ t, e = jsTrim t) ∧ e ≠ "" := by
  unfold blockText at h
  split at h
  · split at h
    · split at h
      · injection h with h
        subst h
        refine ⟨⟨_, rfl⟩, ?_⟩
        rename_i hcond
        exact hcond.2
      · exact absurd h (by simp)
    · exact absurd h (by simp)
  · exact absurd h (by simp)

theorem collectParts_spec {out : List JsonValue} {e : String}
    (he : e ∈ collectParts out) : (∃ t, e = jsTrim t) ∧ e ≠ "" := by
  induction out with
  | nil => simp [collectParts] at he
  | cons item rest ih =>
      unfold collectParts at he
      rcases List.mem_append.mp he with hl | hr
      · split at hl
        · split at hl
          · obtain ⟨c, _, hc⟩ := List.mem_filterMap.mp hl
            exact blockText_spec hc
          · simp at hl
        · simp at hl
      · exact ih hr

theorem blocksOf_eq (fields : List (String × JsonValue)) :
    blocksOf fields =
      (match jsGet fields "output" with
       | some (.arr out) =>
           if collectParts out = [] then none else some (joinNL (collectParts out))
       | _ => none) := by
  unfold blocksOf
  cases hout : jsGet fields "output" with
  | none => rfl
  | some v =>
      cases v with
      | arr out =>
          cases hp : collectParts out with
          | nil => simp [hp, joinNL, jsTrim, trimChars, trimR, List.dropWhile]
          | cons p restp =>
              have hall : ∀ q ∈ p :: restp, (∃ t, q = jsTrim t) ∧ q ≠ "" := by
                intro q hq
                exact collectParts_spec (hp ▸ hq)
              obtain ⟨hfix, hne⟩ := jsTrim_joinNL_eq hall (by simp)
              simp only [hp, hfix, if_neg hne]
              simp
      | null => rfl
      | bool b => rfl
      | num n => rfl
      | str s => rfl
      | obj o => rfl

theorem extract_eq_claimExtract (data : JsonValue) :
    extractResponseText data = claimExtract data := by
  cases data with
  | obj fields =>
      cases hot : jsGet fields "output_text" with
      | none =>
          simp only [extractResponseText, claimExtract, hot]
          exact blocksOf_eq fields
      | some v =>
          cases v with
          | str s =>
              by_cases hs : jsTrim s = ""
              · simp only [extractResponseText, claimExtract, hot, hs, if_pos rfl]
                exact blocksOf_eq fields
              · simp only [extractResponseText, claimExtract, hot, if_neg hs]
          | null => simp only [extractResponseText, claimExtract, hot]; exact blocksOf_eq fields
          | bool b => simp only [extractResponseText, claimExtract, hot]; exact blocksOf_eq fields
          | num n => simp only [extractResponseText, claimExtract, hot]; exact blocksOf_eq fields
          | arr l => simp only [extractResponseText, claimExtract, hot]; exact blocksOf_eq fields
          | obj o => simp only [extractResponseText, claimExtract, hot]; exact blocksOf_eq fields
  | null => rfl
  | bool b => rfl
  | num n => rfl
  | str s => rfl
  | arr l => rfl

/-! ### Lemmas for idempotence of the normalization pipeline -/

theorem roundJs_intCast (k : ℤ) : roundJs (k : ℚ) = k := by
  unfold roundJs
  rw [add_comm, Int.floor_add_int]
  norm_num

theorem roundJs_nonneg {q : ℚ} (h : 0 ≤ q) : 0 ≤ roundJs q := by
  unfold roundJs
  rw [Int.le_floor]
  push_cast
  linarith

theorem roundJs_le {q : ℚ} (h : q ≤ 500000) : roundJs q ≤ 500000 := by
  unfold roundJs
  rw [Int.floor_le_iff]
  push_cast
  linarith

theorem clampAmount_idem {n m : JsNum} (h : clampAmount n = some m) :
    clampAmount m = some m := by
  unfold clampAmount at h
  split at h
  · rename_i q
    split at h
    · exact absurd h (by simp)
    · split at h
      · exact absurd h (by simp)
      · rename_i hneg hbig
        injection h with h
        subst h
        push_neg at hneg hbig
        have h0 : (0 : ℤ) ≤ roundJs q := roundJs_nonneg hneg
        have h5 : roundJs q ≤ 500000 := roundJs_le hbig
        simp only [clampAmount]
        rw [if_neg (by exact_mod_cast not_lt.mpr h0),
          if_neg (by exact_mod_cast not_lt.mpr h5),
          roundJs_intCast]
  · exact absurd h (by simp)

theorem guardCat_amount (c : List String) (d : DraftExpense) :
    (guardCat c d).amount = d.amount := by
  unfold guardCat; split <;> rfl

theorem guardCat_date (c : List String) (d : DraftExpense) :
    (guardCat c d).expense_date = d.expense_date := by
  unfold guardCat; split <;> rfl

theorem guardCat_description (c : List String) (d : DraftExpense) :
    (guardCat c d).description = d.description := by
  unfold guardCat; split <;> rfl

theorem guardCat_account (c : List String) (d : DraftExpense) :
    (guardCat c d).account_id = d.account_id := by
  unfold guardCat; split <;> rfl

theorem guardAcc_amount (a : List String) (d : DraftExpense) :
    (guardAcc a d).amount = d.amount := by
  unfold guardAcc; split <;> rfl

theorem guardAcc_date (a : List String) (d : DraftExpense) :
    (guardAcc a d).expense_date = d.expense_date := by
  unfold guardAcc; split <;> rfl

theorem guardAcc_description (a : List String) (d : DraftExpense) :
    (guardAcc a d).description = d.description := by
  unfold guardAcc; split <;> rfl

theorem guardAcc_category (a : List String) (d : DraftExpense) :
    (guardAcc a d).category_id = d.category_id := by
  unfold guardAcc; split <;> rfl

theorem guardCat_idBad_false (c : List String) (d : DraftExpense) :
    idBad c (guardCat c d).category_id = false := by
  unfold guardCat
  split
  · rfl
  · rename_i h
    exact Bool.not_eq_true _ ▸ eq_false_of_ne_true h

theorem guardAcc_idBad_false (a : List String) (d : DraftExpense) :
    idBad a (guardAcc a d).account_id = false := by
  unfold guardAcc
  split
  · rfl
  · rename_i h
    exact Bool.not_eq_true _ ▸ eq_false_of_ne_true h

/-- The three admissible confidence strings. -/
def ConfOk (s : String) : Prop :=
  s = "high" ∨ s = "medium" ∨ s = "low"

theorem nConf_ok (x : JsonValue) : ConfOk (nConf x) := by
  unfold nConf
  split
  · split
    · assumption
    · right; right; rfl
  · right; right; rfl

theorem guardCat_conf_ok (c : List String) (d : DraftExpense) (h : ConfOk d.confidence) :
    ConfOk (guardCat c d).confidence := by
  unfold guardCat
  split
  · right; right; rfl
  · exact h

theorem guardAcc_conf_ok (a : List String) (d : DraftExpense) (h : ConfOk d.confidence) :
    ConfOk (guardAcc a d).confidence := by
  unfold guardAcc
  split
  · right; right; rfl
  · exact h

theorem filterMap_str_map (l : List String) :
    (l.map JsonValue.str).filterMap
      (fun v => match v with | JsonValue.str s => some s | _ => none) = l := by
  rw [List.filterMap_map]
  have h : ((fun v => match v with | JsonValue.str s => some s | _ => none) ∘ JsonValue.str)
      = (some : String → Option String) := funext fun s => rfl
  rw [h, List.filterMap_some]

theorem refeed_amountRaw (d : DraftExpense) : nAmountRaw (draftToJson d) = d.amount := by
  obtain ⟨am, ed, de, ci, ai, cf, w⟩ := d
  cases am <;> rfl

theorem refeed_dateRaw (d : DraftExpense) : nDateRaw (draftToJson d) = d.expense_date := by
  obtain ⟨am, ed, de, ci, ai, cf, w⟩ := d
  cases ed <;> rfl

theorem refeed_cat (d : DraftExpense) : nCat (draftToJson d) = d.category_id := by
  obtain ⟨am, ed, de, ci, ai, cf, w⟩ := d
  cases ci <;> rfl

theorem refeed_acc (d : DraftExpense) : nAcc (draftToJson d) = d.account_id := by
  obtain ⟨am, ed, de, ci, ai, cf, w⟩ := d
  cases ai <;> rfl

theorem refeed_conf (d : DraftExpense) (h : ConfOk d.confidence) :
    nConf (draftToJson d) = d.confidence := by
  obtain ⟨am, ed, de, ci, ai, cf, w⟩ := d
  show (if cf = "high" ∨ cf = "medium" ∨ cf = "low" then cf else "low") = cf
  exact if_pos h

theorem refeed_warnModel (d : DraftExpense) : nWarnModel (draftToJson d) = d.warnings := by
  obtain ⟨am, ed, de, ci, ai, cf, w⟩ := d
  show (w.map JsonValue.str).filterMap
      (fun v => match v with | JsonValue.str s => some s | _ => none) = w
  exact filterMap_str_map w

theorem refeed_descriptionRaw (d : DraftExpense) :
    nDescription (draftToJson d) =
      (match d.description with
       | some s => if jsTrim s = "" then none else some (jsTrim s)
       | none => none) := by
  obtain ⟨am, ed, de, ci, ai, cf, w⟩ := d
  cases de <;> rfl

theorem nDate_spec {x : JsonValue} {s : String} (h : nDate x = some s) :
    s ≠ "" ∧ isISODate s = true := by
  unfold nDate at h
  split at h
  · split at h
    · injection h with h
      subst h
      assumption
    · exact absurd h (by simp)
  · exact absurd h (by simp)

theorem nDescription_spec {x : JsonValue} {t : String} (h : nDescription x = some t) :
    jsTrim t = t ∧ t ≠ "" := by
  unfold nDescription at h
  split at h
  · split at h
    · exact absurd h (by simp)
    · rename_i hne
      injection h with h
      subst h
      exact ⟨jsTrim_idem _, hne⟩
  · exact absurd h (by simp)

/-- Feeding a draft that satisfies the stability invariants of the
pipeline output back through `normalizeDraft` reproduces it exactly, with
no generated warnings. -/
theorem normalizeDraft_refeed (d : DraftExpense)
    (ham : d.amount = none ∨ ∃ m, d.amount = some m ∧ clampAmount m = some m)
    (hed : d.expense_date = none ∨ ∃ s, d.expense_date = some s ∧ s ≠ "" ∧ isISODate s = true)
    (hde : d.description = none ∨ ∃ t, d.description = some t ∧ jsTrim t = t ∧ t ≠ "")
    (hcf : ConfOk d.confidence) :
    normalizeDraft (draftToJson d) = d := by
  have hAR := refeed_amountRaw d
  have hamount : nAmount (draftToJson d) = d.amount := by
    unfold nAmount
    rw [hAR]
    rcases ham with h | ⟨m, hm, hcl⟩
    · rw [h]
    · rw [hm]
      exact hcl
  have hwarnAm : nAmountWarn (draftToJson d) = [] := by
    unfold nAmountWarn
    rw [hAR, hamount]
    rcases ham with h | ⟨m, hm, hcl⟩
    · rw [h]
    · simp only [hm]
  have hDR := refeed_dateRaw d
  have hdate : nDate (draftToJson d) = d.expense_date := by
    unfold nDate
    rw [hDR]
    rcases hed with h | ⟨s, hs, hne, hiso⟩
    · rw [h]
    · simp only [hs]
      rw [if_pos ⟨hne, hiso⟩]
  have hwarnDate : nDateWarn (draftToJson d) = [] := by
    unfold nDateWarn
    rw [hDR]
    rcases hed with h | ⟨s, hs, hne, hiso⟩
    · rw [h]
    · simp only [hs]
      rw [if_neg]
      intro hcon
      rw [hdate, hs] at hcon
      exact absurd hcon.2 (by simp)
  have hdesc : nDescription (draftToJson d) = d.description := by
    rw [refeed_descriptionRaw d]
    rcases hde with h | ⟨t, ht, hfix, hne⟩
    · rw [h]
    · simp only [ht, hfix]
      rw [if_neg hne]
  have hwm := refeed_warnModel d
  unfold normalizeDraft
  rw [hamount, hwarnAm, hdate, hwarnDate, hdesc, refeed_cat d, refeed_acc d,
    refeed_conf d hcf, hwm]
  simp

/-- Draft-level idempotence: one more pass of the full pipeline over the
serialized output of a pass is the identity. -/
theorem specPipeline_refeed (catIds accIds : List String) (x : JsonValue) :
    specPipeline catIds accIds (draftToJson (specPipeline catIds accIds x))
      = specPipeline catIds accIds x := by
  set g := specPipeline catIds accIds x with hg
  have hgam : g.amount = nAmount x := by
    rw [hg]
    show (guardAcc accIds (guardCat catIds (normalizeDraft x))).amount = _
    rw [guardAcc_amount, guardCat_amount]
    rfl
  have hged : g.expense_date = nDate x := by
    rw [hg]
    show (guardAcc accIds (guardCat catIds (normalizeDraft x))).expense_date = _
    rw [guardAcc_date, guardCat_date]
    rfl
  have hgde : g.description = nDescription x := by
    rw [hg]
    show (guardAcc accIds (guardCat catIds (normalizeDraft x))).description = _
    rw [guardAcc_description, guardCat_description]
    rfl
  have ham : g.amount = none ∨ ∃ m, g.amount = some m ∧ clampAmount m = some m := by
    rw [hgam]
    unfold nAmount
    cases nAmountRaw x with
    | none => left; rfl
    | some n =>
        show clampAmount n = none ∨ ∃ m, clampAmount n = some m ∧ clampAmount m = some m
        cases hc : clampAmount n with
        | none => left; rfl
        | some m => right; exact ⟨m, rfl, clampAmount_idem hc⟩
  have hed : g.expense_date = none ∨ ∃ s, g.expense_date = some s ∧ s ≠ "" ∧ isISODate s = true := by
    rw [hged]
    cases hs : nDate x with
    | none => left; rfl
    | some s => right; exact ⟨s, rfl, nDate_spec hs⟩
  have hde : g.description = none ∨ ∃ t, g.description = some t ∧ jsTrim t = t ∧ t ≠ "" := by
    rw [hgde]
    cases ht : nDescription x with
    | none => left; rfl
    | some t => right; exact ⟨t, rfl, nDescription_spec ht⟩
  have hcf : ConfOk g.confidence := by
    rw [hg]
    show ConfOk (guardAcc accIds (guardCat catIds (normalizeDraft x))).confidence
    exact guardAcc_conf_ok _ _ (guardCat_conf_ok _ _ (nConf_ok x))
  have hcat : idBad catIds g.category_id = false := by
    rw [hg]
    show idBad catIds (guardAcc accIds (guardCat catIds (normalizeDraft x))).category_id = false
    rw [guardAcc_category]
    exact guardCat_idBad_false _ _
  have hacc : idBad accIds g.account_id = false := by
    rw [hg]
    show idBad accIds (guardAcc accIds (guardCat catIds (normalizeDraft x))).account_id = false
    exact guardAcc_idBad_false _ _
  have hnorm : normalizeDraft (draftToJson g) = g :=
    normalizeDraft_refeed g ham hed hde hcf
  show applyGuardrails catIds accIds (normalizeDraft (draftToJson g)) = g
  rw [hnorm]
  unfold applyGuardrails guardCat
  rw [if_neg (by rw [hcat]; simp)]
  unfold guardAcc
  rw [if_neg (by rw [hacc]; simp)]

/-! ### Helper lemmas for the guardrail claims -/

theorem idBad_false_cases {c : List String} {o : Option String} (h : idBad c o = false) :
    o = none ∨ o = some "" ∨ ∃ s, o = some s ∧ s ∈ c := by
  cases o with
  | none => left; rfl
  | some s =>
      right
      by_cases hs : s = ""
      · left; rw [hs]
      · right
        refine ⟨s, rfl, ?_⟩
        simp only [idBad] at h
        rw [show (s == "") = false by simp [hs]] at h
        simp at h
        exact h

theorem idBad_true_of {c : List String} {s : String} (hne : s ≠ "") (hmem : s ∉ c) :
    idBad c (some s) = true := by
  simp only [idBad]
  rw [show (s == "") = false by simp [hne]]
  simp
  exact hmem

theorem idBad_empty (c : List String) : idBad c (some "") = false := rfl

theorem guardCat_warnings_ext (c : List String) (d : DraftExpense) :
    ∃ w, (guardCat c d).warnings = d.warnings ++ w := by
  unfold guardCat
  split
  · exact ⟨[catMsg], rfl⟩
  · exact ⟨[], by simp⟩

theorem guardAcc_warnings_ext (a : List String) (d : DraftExpense) :
    ∃ w, (guardAcc a d).warnings = d.warnings ++ w := by
  unfold guardAcc
  split
  · exact ⟨[accMsg], rfl⟩
  · exact ⟨[], by simp⟩

theorem guardAcc_conf_low (a : List String) (d : DraftExpense) (h : d.confidence = "low") :
    (guardAcc a d).confidence = "low" := by
  unfold guardAcc
  split
  · rfl
  · exact h

/-! ### Claim C1 -/

/-- C1, counterexample.  The claim states that a non-null `category_id`
outside the caller-supplied id set is always nulled out, so that every
returned `category_id` is null or a member of the set.  The model output
`{category_id: ""}` against an empty category list refutes it: the empty
string is not null and not a member, yet the truthiness-based guardrail
leaves it in place. -/
theorem C1_counterexample :
    (fetchPipeline [] [] (.obj [("category_id", .str "")])).category_id = some "" ∧
    ¬ ("" ∈ ([] : List String)) := by
  constructor
  · rfl
  · simp

/-- C1, amended: the guardrail of the fetch revisions nulls out
`category_id` (resp. `account_id`), appends the fixed warning and forces
`confidence = "low"` whenever the draft id is a non-empty string outside
the caller-supplied id set; consequently every returned `category_id`
(resp. `account_id`) is null, the empty string, or a member of the
request's id set. -/
theorem C1_guardrail (catIds accIds : List String) (p : JsonValue) :
    ((fetchPipeline catIds accIds p).category_id = none ∨
      (fetchPipeline catIds accIds p).category_id = some "" ∨
      ∃ s, (fetchPipeline catIds accIds p).category_id = some s ∧ s ∈ catIds) ∧
    ((fetchPipeline catIds accIds p).account_id = none ∨
      (fetchPipeline catIds accIds p).account_id = some "" ∨
      ∃ s, (fetchPipeline catIds accIds p).account_id = some s ∧ s ∈ accIds) ∧
    (∀ s, nCat p = some s → s ≠ "" → s ∉ catIds →
      (fetchPipeline catIds accIds p).category_id = none ∧
      catMsg ∈ (fetchPipeline catIds accIds p).warnings ∧
      (fetchPipeline catIds accIds p).confidence = "low") ∧
    (∀ s, nAcc p = some s → s ≠ "" → s ∉ accIds →
      (fetchPipeline catIds accIds p).account_id = none ∧
      accMsg ∈ (fetchPipeline catIds accIds p).warnings ∧
      (fetchPipeline catIds accIds p).confidence = "low") := by
  refine ⟨?_, ?_, ?_, ?_⟩
  · apply idBad_false_cases
    show idBad catIds (guardAcc accIds (guardCat catIds (buildFetchDraft p))).category_id = false
    rw [guardAcc_category]
    exact guardCat_idBad_false _ _
  · apply idBad_false_cases
    show idBad accIds (guardAcc accIds (guardCat catIds (buildFetchDraft p))).account_id = false
    exact guardAcc_idBad_false _ _
  · intro s hs hne hmem
    have hbad : idBad catIds (buildFetchDraft p).category_id = true := by
      show idBad catIds (nCat p) = true
      rw [hs]
      exact idBad_true_of hne hmem
    have hcat1 : (guardCat catIds (buildFetchDraft p)).category_id = none := by
      unfold guardCat
      rw [if_pos hbad]
    have hconf1 : (guardCat catIds (buildFetchDraft p)).confidence = "low" := by
      unfold guardCat
      rw [if_pos hbad]
    have hwarn1 : (guardCat catIds (buildFetchDraft p)).warnings
        = (buildFetchDraft p).warnings ++ [catMsg] := by
      unfold guardCat
      rw [if_pos hbad]
    refine ⟨?_, ?_, ?_⟩
    · show (guardAcc accIds (guardCat catIds (buildFetchDraft p))).category_id = none
      rw [guardAcc_category, hcat1]
    · obtain ⟨w, hw⟩ := guardAcc_warnings_ext accIds (guardCat catIds (buildFetchDraft p))
      show catMsg ∈ (guardAcc accIds (guardCat catIds (buildFetchDraft p))).warnings
      rw [hw, hwarn1]
      simp
    · show (guardAcc accIds (guardCat catIds (buildFetchDraft p))).confidence = "low"
      exact guardAcc_conf_low _ _ hconf1
  · intro s hs hne hmem
    have hbad : idBad accIds (guardCat catIds (buildFetchDraft p)).account_id = true := by
      rw [guardCat_account]
      show idBad accIds (nAcc p) = true
      rw [hs]
      exact idBad_true_of hne hmem
    refine ⟨?_, ?_, ?_⟩
    · show (guardAcc accIds (guardCat catIds (buildFetchDraft p))).account_id = none
      unfold guardAcc
      rw [if_pos hbad]
    · show accMsg ∈ (guardAcc accIds (guardCat catIds (buildFetchDraft p))).warnings
      unfold guardAcc
      rw [if_pos hbad]
      simp
    · show (guardAcc accIds (guardCat catIds (buildFetchDraft p))).confidence = "low"
      unfold guardAcc
      rw [if_pos hbad]

/-- C1, witness: a concrete out-of-list category and account id. -/
theorem C1_witness :
    (fetchPipeline ["c1"] ["a1"] (.obj [("category_id", .str "zz"), ("account_id", .str "yy")])).category_id = none ∧
    catMsg ∈ (fetchPipeline ["c1"] ["a1"] (.obj [("category_id", .str "zz"), ("account_id", .str "yy")])).warnings ∧
    (fetchPipeline ["c1"] ["a1"] (.obj [("category_id", .str "zz"), ("account_id", .str "yy")])).account_id = none ∧
    (fetchPipeline ["c1"] ["a1"] (.obj [("category_id", .str "zz"), ("account_id", .str "yy")])).confidence = "low" := by
  obtain ⟨-, -, hc, ha⟩ :=
    C1_guardrail ["c1"] ["a1"] (.obj [("category_id", .str "zz"), ("account_id", .str "yy")])
  obtain ⟨h1, h2, -⟩ := hc "zz" rfl (by decide) (by decide)
  obtain ⟨h4, -, h6⟩ := ha "yy" rfl (by decide) (by decide)
  exact ⟨h1, h2, h4, h6⟩

/-! ### Claim C5 -/

/-- C5: when the model output carries `category_id` and `account_id` equal
to the empty string `""`, the truthiness-based guardrail condition is not
triggered: both ids survive as the empty string rather than null, no
guardrail warning is appended (the warnings are exactly the coerced model
warnings), and confidence is not forced to low (it stays the coerced model
confidence), even though `""` is not a member of the caller-supplied id
sets. -/
theorem C5_empty_id_escapes (catIds accIds : List String) (p : JsonValue)
    (hc : nCat p = some "") (ha : nAcc p = some "") :
    (fetchPipeline catIds accIds p).category_id = some "" ∧
    (fetchPipeline catIds accIds p).account_id = some "" ∧
    (fetchPipeline catIds accIds p).warnings = fWarnModel p ∧
    (fetchPipeline catIds accIds p).confidence = nConf p := by
  have hbad1 : idBad catIds (buildFetchDraft p).category_id = false := by
    show idBad catIds (nCat p) = false
    rw [hc]
    exact idBad_empty catIds
  have hg1 : guardCat catIds (buildFetchDraft p) = buildFetchDraft p := by
    unfold guardCat
    rw [if_neg (by rw [hbad1]; simp)]
  have hbad2 : idBad accIds (buildFetchDraft p).account_id = false := by
    show idBad accIds (nAcc p) = false
    rw [ha]
    exact idBad_empty accIds
  have hall : fetchPipeline catIds accIds p = buildFetchDraft p := by
    show guardAcc accIds (guardCat catIds (buildFetchDraft p)) = buildFetchDraft p
    rw [hg1]
    unfold guardAcc
    rw [if_neg (by rw [hbad2]; simp)]
  rw [hall]
  exact ⟨hc, ha, rfl, rfl⟩

/-- C5, witness: empty-string ids against non-empty id lists. -/
theorem C5_witness :
    (fetchPipeline ["c1"] ["a1"]
        (.obj [("category_id", .str ""), ("account_id", .str "")])).category_id = some "" ∧
    (fetchPipeline ["c1"] ["a1"]
        (.obj [("category_id", .str ""), ("account_id", .str "")])).warnings = [] := by
  obtain ⟨h1, -, h3, -⟩ :=
    C5_empty_id_escapes ["c1"] ["a1"]
      (.obj [("category_id", .str ""), ("account_id", .str "")]) rfl rfl
  refine ⟨h1, ?_⟩
  rw [h3]
  rfl

/-! ### Claim C4 -/

/-- C4: the confidence of every returned draft is one of the three
literals `high`, `medium`, `low` — both for the parse revision's
`normalizeDraft` and for the fetch revisions' coercion-plus-guardrail
pipeline; any parsed confidence value that is not one of the three string
literals (including an absent field) becomes `"low"`, and the guardrail
step only ever maps confidence inside the set (to `"low"`). -/
theorem C4_confidence :
    (∀ x, ConfOk (normalizeDraft x).confidence) ∧
    (∀ catIds accIds p, ConfOk (fetchPipeline catIds accIds p).confidence) ∧
    (∀ x, (∀ s, getJ x "confidence" = some (.str s) → ¬ ConfOk s) → nConf x = "low") ∧
    (∀ x, getJ x "confidence" = none → nConf x = "low") := by
  refine ⟨?_, ?_, ?_, ?_⟩
  · intro x
    exact nConf_ok x
  · intro catIds accIds p
    show ConfOk (guardAcc accIds (guardCat catIds (buildFetchDraft p))).confidence
    exact guardAcc_conf_ok _ _ (guardCat_conf_ok _ _ (nConf_ok p))
  · intro x h
    unfold nConf
    cases hx : getJ x "confidence" with
    | none => rfl
    | some v =>
        cases v with
        | str s => exact if_neg (h s hx)
        | null => rfl
        | bool b => rfl
        | num n => rfl
        | arr l => rfl
        | obj o => rfl
  · intro x h
    unfold nConf
    rw [h]

/-- C4, witness: a confidence string outside the enumeration becomes
`"low"`. -/
theorem C4_witness :
    ConfOk (normalizeDraft (.obj [])).confidence ∧
    nConf (.obj [("confidence", .str "LOW")]) = "low" := by
  refine ⟨C4_confidence.1 _, ?_⟩
  apply C4_confidence.2.2.1
  intro s h
  rw [show getJ (JsonValue.obj [("confidence", JsonValue.str "LOW")]) "confidence"
      = some (.str "LOW") from rfl] at h
  injection h with h
  injection h with h
  subst h
  unfold ConfOk
  decide

/-! ### Claim C2 -/

/-- C2, counterexample.  The claim states that every returned amount is
null or an integer within `[0, 500000]`, with out-of-range values nulled.
The fetch revisions build the draft without any clamp, so the model output
`{amount: -5}` comes back as `-5`. -/
theorem C2_counterexample :
    (fetchPipeline [] [] (.obj [("amount", .num (.finite (-5)))])).amount
      = some (.finite (-5)) ∧ ((-5 : ℚ) < 0) := by
  constructor
  · rfl
  · norm_num

/-- C2, amended, on the parse revision's `normalizeDraft`: the returned
amount is null or an integer `k` with `0 ≤ k ≤ 500000`; a numeric parsed
amount rejected by the clamp (not finite, negative, or above 500000)
becomes null with the amount warning appended; a non-numeric parsed amount
becomes null with no warning; and an in-range numeric amount is rounded to
the nearest whole unit (half toward positive infinity). -/
theorem C2_amount (x : JsonValue) :
    ((normalizeDraft x).amount = none ∨
      ∃ k : ℤ, (normalizeDraft x).amount = some (.finite (k : ℚ)) ∧ 0 ≤ k ∧ k ≤ 500000) ∧
    (∀ n, nAmountRaw x = some n → clampAmount n = none →
      (normalizeDraft x).amount = none ∧
      nAmountWarn x = ["Amount looked invalid/out of range; please verify."]) ∧
    (nAmountRaw x = none → (normalizeDraft x).amount = none ∧ nAmountWarn x = []) ∧
    (∀ q : ℚ, nAmountRaw x = some (.finite q) → ¬ q < 0 → ¬ q > 500000 →
      (normalizeDraft x).amount = some (.finite ((roundJs q : ℤ) : ℚ))) := by
  refine ⟨?_, ?_, ?_, ?_⟩
  · show nAmount x = none ∨ ∃ k : ℤ, nAmount x = some (.finite (k : ℚ)) ∧ 0 ≤ k ∧ k ≤ 500000
    unfold nAmount
    cases nAmountRaw x with
    | none => left; rfl
    | some n =>
        show clampAmount n = none ∨
          ∃ k : ℤ, clampAmount n = some (.finite (k : ℚ)) ∧ 0 ≤ k ∧ k ≤ 500000
        cases n with
        | nan => left; rfl
        | posInf => left; rfl
        | negInf => left; rfl
        | finite q =>
            simp only [clampAmount]
            by_cases h1 : q < 0
            · rw [if_pos h1]; left; rfl
            · by_cases h2 : q > 500000
              · rw [if_neg h1, if_pos h2]; left; rfl
              · rw [if_neg h1, if_neg h2]
                right
                exact ⟨roundJs q, rfl, roundJs_nonneg (not_lt.mp h1), roundJs_le (not_lt.mp h2)⟩
  · intro n hn hcl
    have hna : nAmount x = none := by
      unfold nAmount
      rw [hn]
      exact hcl
    refine ⟨hna, ?_⟩
    unfold nAmountWarn
    rw [hn, hna]
  · intro h
    have hna : nAmount x = none := by
      unfold nAmount
      rw [h]
    refine ⟨hna, ?_⟩
    unfold nAmountWarn
    rw [h]
  · intro q hq h1 h2
    show nAmount x = some (.finite ((roundJs q : ℤ) : ℚ))
    unfold nAmount
    rw [hq]
    show clampAmount (.finite q) = some (.finite ((roundJs q : ℤ) : ℚ))
    simp only [clampAmount]
    rw [if_neg h1, if_neg h2]

/-- C2, witness: `2.5` rounds to `3`; `-5` is nulled with the amount
warning. -/
theorem C2_witness :
    (normalizeDraft (.obj [("amount", .num (.finite (5 / 2)))])).amount
      = some (.finite (3 : ℚ)) ∧
    (normalizeDraft (.obj [("amount", .num (.finite (-5)))])).amount = none ∧
    nAmountWarn (.obj [("amount", .num (.finite (-5)))])
      = ["Amount looked invalid/out of range; please verify."] := by
  refine ⟨?_, ?_, ?_⟩
  · have h := (C2_amount (.obj [("amount", .num (.finite (5 / 2)))])).2.2.2
      (5 / 2) rfl (by norm_num) (by norm_num)
    have hr : roundJs (5 / 2 : ℚ) = 3 := by
      unfold roundJs
      rw [show (5 / 2 + 1 / 2 : ℚ) = ((3 : ℤ) : ℚ) by norm_num, Int.floor_intCast]
    rw [hr] at h
    norm_num at h
    exact h
  · exact ((C2_amount (.obj [("amount", .num (.finite (-5)))])).2.1
      (.finite (-5)) rfl (by decide)).1
  · exact ((C2_amount (.obj [("amount", .num (.finite (-5)))])).2.1
      (.finite (-5)) rfl (by decide)).2

/-! ### Claim C3 -/

/-- C3, counterexample.  The claim states that every returned
`expense_date` is null or matches the pattern.  The fetch revisions pass
any string through without the format check, so `"15/01/2024"` comes back
unchanged even though it fails the pattern. -/
theorem C3_counterexample :
    (fetchPipeline [] [] (.obj [("expense_date", .str "15/01/2024")])).expense_date
      = some "15/01/2024" ∧ isISODate "15/01/2024" = false := by
  constructor
  · rfl
  · decide

/-- C3, amended, on the parse revision's `normalizeDraft`: the returned
`expense_date` is null or a string matching `^\d{4}-\d{2}-\d{2}$`; a
parsed value that is a non-empty string failing the pattern becomes null
with the date warning appended; a non-string or empty-string value becomes
null with no warning; a non-empty matching string is kept. -/
theorem C3_date (x : JsonValue) :
    ((normalizeDraft x).expense_date = none ∨
      ∃ s, (normalizeDraft x).expense_date = some s ∧ isISODate s = true) ∧
    (∀ s, nDateRaw x = some s → s ≠ "" → isISODate s = false →
      (normalizeDraft x).expense_date = none ∧
      nDateWarn x = ["Date wasn’t in YYYY-MM-DD format; please verify."]) ∧
    (nDateRaw x = none → (normalizeDraft x).expense_date = none ∧ nDateWarn x = []) ∧
    (nDateRaw x = some "" → (normalizeDraft x).expense_date = none ∧ nDateWarn x = []) ∧
    (∀ s, nDateRaw x = some s → s ≠ "" → isISODate s = true →
      (normalizeDraft x).expense_date = some s) := by
  refine ⟨?_, ?_, ?_, ?_, ?_⟩
  · show nDate x = none ∨ ∃ s, nDate x = some s ∧ isISODate s = true
    cases hs : nDate x with
    | none => left; rfl
    | some s => right; exact ⟨s, rfl, (nDate_spec hs).2⟩
  · intro s hs hne hiso
    have hd : nDate x = none := by
      simp only [nDate, hs]
      rw [if_neg]
      intro hcon
      rw [hiso] at hcon
      exact absurd hcon.2 (by simp)
    refine ⟨hd, ?_⟩
    simp only [nDateWarn, hs]
    rw [if_pos ⟨hne, hd⟩]
  · intro h
    refine ⟨?_, ?_⟩
    · show nDate x = none
      simp only [nDate, h]
    · simp only [nDateWarn, h]
  · intro h
    refine ⟨?_, ?_⟩
    · show nDate x = none
      simp only [nDate, h]
      rw [if_neg]
      intro hcon
      exact hcon.1 rfl
    · simp only [nDateWarn, h]
      rw [if_neg]
      intro hcon
      exact hcon.1 rfl
  · intro s hs hne hiso
    show nDate x = some s
    simp only [nDate, hs]
    rw [if_pos ⟨hne, hiso⟩]

/-- C3, witness: a matching date is kept; a malformed one is nulled with
the date warning. -/
theorem C3_witness :
    (normalizeDraft (.obj [("expense_date", .str "2024-01-15")])).expense_date
      = some "2024-01-15" ∧
    (normalizeDraft (.obj [("expense_date", .str "Jan 15")])).expense_date = none ∧
    nDateWarn (.obj [("expense_date", .str "Jan 15")])
      = ["Date wasn’t in YYYY-MM-DD format; please verify."] := by
  refine ⟨?_, ?_, ?_⟩
  · exact (C3_date (.obj [("expense_date", .str "2024-01-15")])).2.2.2.2
      "2024-01-15" rfl (by decide) (by decide)
  · exact ((C3_date (.obj [("expense_date", .str "Jan 15")])).2.1
      "Jan 15" rfl (by decide) (by decide)).1
  · exact ((C3_date (.obj [("expense_date", .str "Jan 15")])).2.1
      "Jan 15" rfl (by decide) (by decide)).2

/-! ### Claim C6 -/

/-- C6: normalization is idempotent.  Feeding the serialized output of the
full normalization-and-guardrail pipeline (steps 1-5 `normalizeDraft`,
step 6 the referential guardrail) back through the same pipeline with the
same reference lists yields the identical draft — in particular no new
warnings are appended and confidence is unchanged. -/
theorem C6_normalize_idempotent (catIds accIds : List String) (x : JsonValue) :
    specPipeline catIds accIds (draftToJson (specPipeline catIds accIds x))
      = specPipeline catIds accIds x :=
  specPipeline_refeed catIds accIds x

/-! ### Claim C7 -/

/-- C7, counterexample.  The claim says blocks of the two text kinds with
non-empty string text are concatenated, each trimmed, separated by
newlines.  A whitespace-only block (`" "`, non-empty) is skipped by the
code (`text.trim()` is falsy), so between blocks `"a"` and `"b"` the code
yields `"a\nb"` while the claim as stated yields `"a\n\nb"`. -/
theorem C7_counterexample :
    extractResponseText
        (.obj [("output", .arr [.obj [("content", .arr
          [.obj [("type", .str "output_text"), ("text", .str "a")],
           .obj [("type", .str "output_text"), ("text", .str " ")],
           .obj [("type", .str "output_text"), ("text", .str "b")]])]])])
      = some "a\nb" ∧
    claimExtractOrig
        (.obj [("output", .arr [.obj [("content", .arr
          [.obj [("type", .str "output_text"), ("text", .str "a")],
           .obj [("type", .str "output_text"), ("text", .str " ")],
           .obj [("type", .str "output_text"), ("text", .str "b")]])]])])
      = some "a\n\nb" ∧
    ("a\nb" : String) ≠ "a\n\nb" := by
  refine ⟨?_, ?_, ?_⟩
  · decide
  · decide
  · decide

/-- C7, amended: `extractResponseText` behaves exactly as the claim states
with the block condition read as non-empty after trimming — the flattened
`output_text` string is preferred when its trim is non-empty, otherwise
the trimmed texts of the qualifying blocks are joined with newlines, and
`none` results when neither path yields text; in that case the route
answers 500 with a message built only from the top-level key names of the
payload, never from its values. -/
theorem C7_extraction :
    (∀ data, extractResponseText data = claimExtract data) ∧
    (∀ fields s, jsGet fields "output_text" = some (.str s) → jsTrim s ≠ "" →
      extractResponseText (.obj fields) = some (jsTrim s)) ∧
    (∀ data, (emptyOutputResp data).status = 500 ∧
      (emptyOutputResp data).error
        = some ("OpenAI returned no readable text. Response keys: " ++ keysOf data)) ∧
    (∀ f g, f.map Prod.fst = g.map Prod.fst →
      emptyOutputResp (.obj f) = emptyOutputResp (.obj g)) := by
  refine ⟨extract_eq_claimExtract, ?_, ?_, ?_⟩
  · intro fields s h hs
    simp only [extractResponseText, h, if_neg hs]
  · intro data
    exact ⟨rfl, rfl⟩
  · intro f g h
    simp only [emptyOutputResp, keysOf]
    rw [h]

/-- C7, witness: a flattened field is trimmed and preferred; two payloads
with the same keys produce the same empty-output diagnostic. -/
theorem C7_witness :
    extractResponseText (.obj [("output_text", .str " hi ")]) = some "hi" ∧
    emptyOutputResp (.obj [("k", .str "secret-a")])
      = emptyOutputResp (.obj [("k", .str "secret-b")]) := by
  constructor
  · have h := C7_extraction.2.1 [("output_text", .str " hi ")] " hi " rfl (by decide)
    rw [show jsTrim " hi " = "hi" from by decide] at h
    exact h
  · exact C7_extraction.2.2.2 [("k", .str "secret-a")] [("k", .str "secret-b")] rfl

/-! ### Claim C8 -/

/-- C8, counterexample.  The claim states that each element of a
model-supplied warnings list is coerced to a string.  The parse revision
filters out non-string elements instead: `[true]` yields `[]`, not
`["true"]` (the `String()` coercion of the element). -/
theorem C8_counterexample :
    (normalizeDraft (.obj [("warnings", .arr [.bool true])])).warnings = [] ∧
    List.map jsString [JsonValue.bool true] = ["true"] ∧
    ([] : List String) ≠ ["true"] := by
  refine ⟨rfl, rfl, by decide⟩

/-- C8, amended: the model-supplied warnings are accepted only when the
value is a list, otherwise the model part is empty; in the fetch revisions
each element is coerced to a string with `String()`, while the parse
revision keeps only the elements that already are strings; in every
revision the model-supplied warnings come first and the warnings generated
by the pass are appended after them (the result is a list, never null). -/
theorem C8_warnings :
    (∀ catIds accIds p, ∃ gen,
      (fetchPipeline catIds accIds p).warnings = fWarnModel p ++ gen) ∧
    (∀ x, (normalizeDraft x).warnings = nWarnModel x ++ (nAmountWarn x ++ nDateWarn x)) ∧
    (∀ p l, getJ p "warnings" = some (.arr l) → fWarnModel p = l.map jsString) ∧
    (∀ x l, getJ x "warnings" = some (.arr l) →
      nWarnModel x = l.filterMap (fun v => match v with | .str s => some s | _ => none)) ∧
    (∀ p, (∀ l, getJ p "warnings" ≠ some (.arr l)) →
      fWarnModel p = [] ∧ nWarnModel p = []) := by
  refine ⟨?_, ?_, ?_, ?_, ?_⟩
  · intro catIds accIds p
    obtain ⟨w1, hw1⟩ := guardCat_warnings_ext catIds (buildFetchDraft p)
    obtain ⟨w2, hw2⟩ := guardAcc_warnings_ext accIds (guardCat catIds (buildFetchDraft p))
    refine ⟨w1 ++ w2, ?_⟩
    show (guardAcc accIds (guardCat catIds (buildFetchDraft p))).warnings = _
    rw [hw2, hw1, List.append_assoc]
    rfl
  · intro x
    rfl
  · intro p l h
    unfold fWarnModel
    rw [h]
  · intro x l h
    unfold nWarnModel
    rw [h]
  · intro p h
    constructor
    · unfold fWarnModel
      cases hv : getJ p "warnings" with
      | none => rfl
      | some v =>
          cases v with
          | arr l => exact absurd hv (h l)
          | null => rfl
          | bool b => rfl
          | num n => rfl
          | str s => rfl
          | obj o => rfl
    · unfold nWarnModel
      cases hv : getJ p "warnings" with
      | none => rfl
      | some v =>
          cases v with
          | arr l => exact absurd hv (h l)
          | null => rfl
          | bool b => rfl
          | num n => rfl
          | str s => rfl
          | obj o => rfl

/-- C8, witness: a mixed warnings list is coerced element-wise by the
fetch revisions and filtered by the parse revision. -/
theorem C8_witness :
    fWarnModel (.obj [("warnings", .arr [.str "w1", .bool true])]) = ["w1", "true"] ∧
    nWarnModel (.obj [("warnings", .arr [.str "w1", .bool true])]) = ["w1"] := by
  constructor
  · rw [C8_warnings.2.2.1 (.obj [("warnings", .arr [.str "w1", .bool true])])
      [.str "w1", .bool true] rfl]
    rfl
  · rw [C8_warnings.2.2.2.1 (.obj [("warnings", .arr [.str "w1", .bool true])])
      [.str "w1", .bool true] rfl]
    rfl

/-! ### Claim C9 -/

/-- The claim's bad-image condition for the strict fetch revisions: the
`imageDataUrl` member is missing, not a string, or a string without the
`data:image/` prefix. -/
def fetchImageBad (body : JsonValue) : Prop :=
  ∀ s, getJ body "imageDataUrl" = some (.str s) → jsStartsWith s "data:image/" = false

/-- C9, counterexample.  The claim states that a request whose
`imageDataUrl` is not a string is answered with 400 before any outbound
call.  The parse revision first coerces the value with
`String(body?.imageDataUrl || "")`; a singleton array holding a
`data:image/` string coerces to that string, passes the prefix check, and
the outbound call is made (the response is whatever the call stage
returns). -/
theorem C9_counterexample :
    getJ (.obj [("imageDataUrl", .arr [.str "data:image/png;base64,AA"])]) "imageDataUrl"
      = some (.arr [.str "data:image/png;base64,AA"]) ∧
    parsePrecheck (.obj [("imageDataUrl", .arr [.str "data:image/png;base64,AA"])])
      = .ok "data:image/png;base64,AA" ∧
    parseHandler (fun _ => { status := 200 })
        (.obj [("imageDataUrl", .arr [.str "data:image/png;base64,AA"])])
      = { status := 200 } ∧
    parseHandler (fun _ => { status := 201 })
        (.obj [("imageDataUrl", .arr [.str "data:image/png;base64,AA"])])
      = { status := 201 } := by
  refine ⟨rfl, rfl, rfl, rfl⟩

/-- C9, amended: in the strict fetch revisions (given the provider key is
configured), any request whose `imageDataUrl` is missing, not a string, or
a string without the `data:image/` prefix is answered with a 400 response
carrying an `error` field, and the response does not depend on the
outbound-call stage (no outbound call is observed); in the parse revision
the same holds exactly when the JavaScript string coercion of
`body?.imageDataUrl || ""` lacks the prefix. -/
theorem C9_image_400 (body : JsonValue)
    (o1 o2 : String × List JsonValue × List JsonValue → ApiResponse)
    (q1 q2 : String → ApiResponse) :
    (fetchImageBad body →
      fetchHandler true o1 body = fetchHandler true o2 body ∧
      (fetchHandler true o1 body).status = 400 ∧
      (fetchHandler true o1 body).error ≠ none) ∧
    (jsStartsWith (imageCoerced body) "data:image/" = false →
      parseHandler q1 body = parseHandler q2 body ∧
      (parseHandler q1 body).status = 400 ∧
      (parseHandler q1 body).error ≠ none) := by
  constructor
  · intro hbad
    have herr : ∃ r, fetchPrecheck true body = .error r ∧ r.status = 400 ∧ r.error ≠ none := by
      cases body with
      | obj fields =>
          cases himg : jsGet fields "imageDataUrl" with
          | none =>
              refine ⟨{ status := 400, error := some "imageDataUrl is required" }, ?_, rfl, by simp⟩
              simp only [fetchPrecheck, himg]
              rfl
          | some v =>
              cases v with
              | str s =>
                  by_cases hse : s = ""
                  · subst hse
                    refine ⟨{ status := 400, error := some "imageDataUrl is required" },
                      ?_, rfl, by simp⟩
                    simp only [fetchPrecheck, himg]
                    rfl
                  · have hsw := hbad s himg
                    refine ⟨{ status := 400, error := some "imageDataUrl must be a data:image/* URL" },
                      ?_, rfl, by simp⟩
                    simp [fetchPrecheck, himg, hse, hsw]
              | null =>
                  refine ⟨{ status := 400, error := some "imageDataUrl is required" }, ?_, rfl, by simp⟩
                  simp only [fetchPrecheck, himg]
                  rfl
              | bool b =>
                  refine ⟨{ status := 400, error := some "imageDataUrl is required" }, ?_, rfl, by simp⟩
                  simp only [fetchPrecheck, himg]
                  rfl
              | num n =>
                  refine ⟨{ status := 400, error := some "imageDataUrl is required" }, ?_, rfl, by simp⟩
                  simp only [fetchPrecheck, himg]
                  rfl
              | arr l =>
                  refine ⟨{ status := 400, error := some "imageDataUrl is required" }, ?_, rfl, by simp⟩
                  simp only [fetchPrecheck, himg]
                  rfl
              | obj o =>
                  refine ⟨{ status := 400, error := some "imageDataUrl is required" }, ?_, rfl, by simp⟩
                  simp only [fetchPrecheck, himg]
                  rfl
      | null => exact ⟨{ status := 400, error := some "Invalid JSON body" }, rfl, rfl, by simp⟩
      | bool b => exact ⟨{ status := 400, error := some "Invalid JSON body" }, rfl, rfl, by simp⟩
      | num n => exact ⟨{ status := 400, error := some "Invalid JSON body" }, rfl, rfl, by simp⟩
      | str s => exact ⟨{ status := 400, error := some "Invalid JSON body" }, rfl, rfl, by simp⟩
      | arr l => exact ⟨{ status := 400, error := some "Invalid JSON body" }, rfl, rfl, by simp⟩
    obtain ⟨r, hr, h4, he⟩ := herr
    have h1 : fetchHandler true o1 body = r := by
      unfold fetchHandler
      rw [hr]
    have h2 : fetchHandler true o2 body = r := by
      unfold fetchHandler
      rw [hr]
    exact ⟨h1.trans h2.symm, h1 ▸ h4, h1 ▸ he⟩
  · intro hbad
    have hr : parsePrecheck body
        = .error { status := 400, error := some "Invalid imageDataUrl (expected data:image/...)" } := by
      unfold parsePrecheck
      rw [if_neg (by rw [hbad]; simp)]
    have h1 : parseHandler q1 body
        = { status := 400, error := some "Invalid imageDataUrl (expected data:image/...)" } := by
      unfold parseHandler
      rw [hr]
    have h2 : parseHandler q2 body
        = { status := 400, error := some "Invalid imageDataUrl (expected data:image/...)" } := by
      unfold parseHandler
      rw [hr]
    refine ⟨h1.trans h2.symm, ?_, ?_⟩
    · rw [h1]
    · rw [h1]
      simp

/-- C9, witness: a non-data-URL string is rejected with 400 by both
revisions, independently of the outbound-call stage. -/
theorem C9_witness :
    fetchHandler true (fun _ => { status := 200 }) (.obj [("imageDataUrl", .str "nope")])
      = fetchHandler true (fun _ => { status := 201 }) (.obj [("imageDataUrl", .str "nope")]) ∧
    (fetchHandler true (fun _ => { status := 200 })
        (.obj [("imageDataUrl", .str "nope")])).status = 400 ∧
    (parseHandler (fun _ => { status := 200 }) (.obj [])).status = 400 := by
  have hf := (C9_image_400 (.obj [("imageDataUrl", .str "nope")])
      (fun _ => { status := 200 }) (fun _ => { status := 201 })
      (fun _ => { status := 200 }) (fun _ => { status := 201 })).1
      (by
        intro s h
        rw [show getJ (JsonValue.obj [("imageDataUrl", JsonValue.str "nope")]) "imageDataUrl"
            = some (.str "nope") from rfl] at h
        injection h with h
        injection h with h
        subst h
        rfl)
  have hp := (C9_image_400 (.obj []) (fun _ => { status := 200 }) (fun _ => { status := 201 })
      (fun _ => { status := 200 }) (fun _ => { status := 201 })).2 rfl
  exact ⟨hf.1, hf.2.1, hp.2.1⟩

/-! ### Claim C10 -/

/-- C10, counterexample.  The claim states that the malformed-JSON
diagnostic never echoes the full untrusted model text verbatim.  The parse
revision returns the full raw text in the `raw` field of its 502 response:
here a 301-character text is echoed whole. -/
theorem C10_counterexample :
    (malformedRespParse ⟨List.replicate 301 'a'⟩).raw
      = some (⟨List.replicate 301 'a'⟩ : String) ∧
    300 < (⟨List.replicate 301 'a'⟩ : String).length := by
  constructor
  · rfl
  · show 300 < (List.replicate 301 'a').length
    rw [List.length_replicate]
    norm_num

/-- C10, amended: the second fetch revision answers 500 with a diagnostic
carrying exactly the first 300 characters of the offending text (a prefix
of bounded length), the first fetch revision echoes nothing (a fixed
message), and the parse revision returns the full raw text in a separate
`raw` field of a 502 response. -/
theorem C10_truncation (t : String) :
    (malformedRespFetchB t).status = 500 ∧
    (malformedRespFetchB t).error
      = some ("Model did not return valid JSON. Got: " ++ jsTake t 300) ∧
    (jsTake t 300).length ≤ 300 ∧
    (jsTake t 300).data ++ t.data.drop 300 = t.data ∧
    malformedRespFetchA.error = some "Model did not return valid JSON" ∧
    (malformedRespParse t).raw = some t ∧
    (malformedRespParse t).status = 502 := by
  refine ⟨rfl, rfl, ?_, ?_, rfl, rfl, rfl⟩
  · show (t.data.take 300).length ≤ 300
    rw [List.length_take]
    exact min_le_left _ _
  · show t.data.take 300 ++ t.data.drop 300 = t.data
    exact List.take_append_drop 300 t.data
